import Mathlib

/-!
# Verification of the TerrainLab binary container tools

Shallow embedding of the codec layer of the TerrainLab repository:
the little-endian record packers, the container writers
(map / static-index / static-data / tiledata / art-index), the block
address resolver and dimension autodetection, the block reader, and the
pre-write validation pipeline.  Byte sequences are modelled as
`List Nat` (each element a byte value), and Python's fallible paths as
`Except` / `Option`.
-/

/-- Error taxonomy: one constructor per named failure condition, each
corresponding to a distinct raise site in the source, plus FloatOverflow
for the OverflowError that Python's int-to-float conversion raises
inside math.sqrt on astronomically large arguments. -/
inductive MulErr where
  | InvalidDimension
  | InvalidFacet
  | InvalidTileId
  | InvalidAltitude
  | DestinationExists
  | TruncatedBlock
  | MisalignedFileSize
  | FloatOverflow
  deriving DecidableEq, Repr

/-- Byte list produced by struct.pack "<B": unsigned 8-bit. -/
def packU8 (v : Nat) : List Nat := [v % 256]

/-- Byte list produced by struct.pack "<H": unsigned 16-bit little-endian. -/
def packU16LE (v : Nat) : List Nat := [v % 256, v / 256 % 256]

/-- Byte list produced by struct.pack "<I": unsigned 32-bit little-endian. -/
def packU32LE (v : Nat) : List Nat :=
  [v % 256, v / 256 % 256, v / 65536 % 256, v / 16777216 % 256]

/-- Byte list produced by struct.pack "<b": signed 8-bit two's complement. -/
def packI8 (v : Int) : List Nat := [(v % 256).toNat]

/-- Byte list produced by struct.pack "<i": signed 32-bit little-endian,
two's complement. -/
def packI32LE (v : Int) : List Nat := packU32LE (v % 4294967296).toNat

/-- Map2TXT.py: BLOCK_SIZE_BYTES = 4 + 64 * 3 (header plus 64 cells of 3
bytes). -/
def BLOCK_SIZE_BYTES : Nat := 4 + 64 * 3

/-- Map2TXT.py KNOWN_BLOCK_DIMS, in declaration order (Python dicts
iterate in insertion order). -/
def KNOWN_BLOCK_DIMS : List ((Nat × Nat) × String) :=
  [((768, 512), "Classic rectangular (map0/map1 style)"),
   ((896, 512), "Large rectangular (variant)"),
   ((288, 200), "Medium rectangular (map2-like)"),
   ((256, 256), "Square (map3-like)"),
   ((181, 181), "Small square (map4-like)"),
   ((512, 512), "Square test/dev")]

/-- Smallest shift s (starting from the given accumulator) with
n < 2^(53+s); fuel-bounded structural recursion, fuel 1100 covers every
n below the float overflow threshold. -/
def shiftAux (n : Nat) : Nat → Nat → Nat
  | 0, s => s
  | fuel + 1, s => if n < 2 ^ (53 + s) then s else shiftAux n fuel (s + 1)

/-- Smallest t (starting from the given accumulator) with v < 2^(t+1),
i.e. the floor base-2 logarithm of v for v ≥ 1; fuel-bounded. -/
def bitLenAux (v : Nat) : Nat → Nat → Nat
  | 0, t => t
  | fuel + 1, t => if v < 2 ^ (t + 1) then t else bitLenAux v fuel (t + 1)

/-- Bitwise integer square root: after starting at isqrtAux N b 0 the
result is the floor square root of N for every N < 4^b. -/
def isqrtAux (N : Nat) : Nat → Nat → Nat
  | 0, acc => acc
  | b + 1, acc =>
    let cand := acc + 2 ^ b
    if cand * cand ≤ N then isqrtAux N b cand else isqrtAux N b acc

/-- CPython int-to-float64 conversion: a nonnegative int is rounded to
53 significant bits, round-to-nearest ties-to-even; OverflowError
(none) exactly when the rounded value would reach 2^1024, i.e. when
n ≥ 2^1024 - 2^970.  The result is returned as its exact integer value
(the rounded value of a nonnegative int is always an integer). -/
def floatOfNat (n : Nat) : Option Nat :=
  if n < 2 ^ 53 then some n
  else if 2 ^ 1024 - 2 ^ 970 ≤ n then none
  else
    let s := shiftAux n 1100 0
    let m0 := n / 2 ^ s
    let r := n - m0 * 2 ^ s
    let half := 2 ^ (s - 1)
    let m := if half < r ∨ (r = half ∧ m0 % 2 = 1) then m0 + 1 else m0
    some (m * 2 ^ s)

/-- CPython int(math.sqrt(n)) for a nonnegative int n: convert n to
float64 (OverflowError as none), take the IEEE 754 correctly rounded
(nearest-even) square root, truncate toward zero.  The rounded square
root is computed exactly: with t the floor log2 of the float value v,
the 53-bit mantissa lies in [2^52, 2^53) at scale e = t/2 - 52, and
rounding up occurs iff (2*q0+1)^2 < 4*N for the scaled radicand N (a
tie is impossible since (2*q0+1)^2 is odd). -/
def int_math_sqrt (n : Nat) : Option Nat :=
  match floatOfNat n with
  | none => none
  | some 0 => some 0
  | some v =>
    let t := bitLenAux v 1100 0
    if 52 ≤ t / 2 then
      let e := t / 2 - 52
      let N := v / 4 ^ e
      let q0 := isqrtAux N 54 0
      let q := if (2 * q0 + 1) * (2 * q0 + 1) ≤ 4 * N then q0 + 1 else q0
      some (q * 2 ^ e)
    else
      let d := 52 - t / 2
      let N := v * 4 ^ d
      let q0 := isqrtAux N 54 0
      let q := if (2 * q0 + 1) * (2 * q0 + 1) ≤ 4 * N then q0 + 1 else q0
      some (q / 2 ^ d)

/-- Map2TXT.py autodetect_block_dims.  The fallback models Python's
int(math.sqrt(total_blocks)) faithfully through the float64 semantics
of int_math_sqrt, including the OverflowError path. -/
def autodetect_block_dims (file_size : Nat) :
    Except MulErr (Nat × Nat × String × Nat) :=
  if file_size % BLOCK_SIZE_BYTES ≠ 0 then
    .error .MisalignedFileSize
  else
    let total_blocks := file_size / BLOCK_SIZE_BYTES
    match KNOWN_BLOCK_DIMS.find? (fun e => e.1.1 * e.1.2 == total_blocks) with
    | some ((ax, ay), label) => .ok (ax, ay, label, total_blocks)
    | none =>
      match int_math_sqrt total_blocks with
      | some r => .ok (r, r, "Heuristic", total_blocks)
      | none => .error .FloatOverflow

/-- Map2TXT.py block_offset. -/
def block_offset (bx byy blocks_down : Nat) : Nat :=
  ((bx * blocks_down) + byy) * BLOCK_SIZE_BYTES

/-- Decoding of the altitude byte of struct.unpack "<Hb": signed 8-bit
two's complement. -/
def decodeI8 (b : Nat) : Int := if b < 128 then (b : Int) else (b : Int) - 256

/-- Decoding of a 4-byte little-endian signed 32-bit block header. -/
def decodeI32LE (b0 b1 b2 b3 : Nat) : Int :=
  let u : Int := b0 + 256 * b1 + 65536 * b2 + 16777216 * b3
  if u < 2147483648 then u else u - 4294967296

/-- One f.read(3) plus CELL_STRUCT.unpack step of Map2TXT.read_block:
consume three bytes and decode (tile_id, altitude); none on short read. -/
def readCell : List Nat → Option ((Nat × Int) × List Nat)
  | b0 :: b1 :: b2 :: rest => some ((b0 + 256 * b1, decodeI8 b2), rest)
  | _ => none

/-- The inner `for x in range(8)` loop of read_block: n cells in
sequence, failing as soon as one short read occurs. -/
def readCells : Nat → List Nat → Option (List (Nat × Int) × List Nat)
  | 0, l => some ([], l)
  | n + 1, l =>
    match readCell l with
    | none => none
    | some (c, l1) =>
      match readCells n l1 with
      | none => none
      | some (cs, l2) => some (c :: cs, l2)

/-- The outer `for y in range(8)` loop of read_block: k rows of 8 cells. -/
def readRows : Nat → List Nat → Option (List (List (Nat × Int)) × List Nat)
  | 0, l => some ([], l)
  | k + 1, l =>
    match readCells 8 l with
    | none => none
    | some (row, l1) =>
      match readRows k l1 with
      | none => none
      | some (rows, l2) => some (row :: rows, l2)

/-- Map2TXT.py read_block over an in-memory byte source: seek to
block_offset, read a 4-byte header, then 8 rows of 8 cells; every short
read (header or any cell) is TruncatedBlock. -/
def read_block (file : List Nat) (bx byy blocks_down : Nat) :
    Except MulErr (Int × List (List (Nat × Int))) :=
  match file.drop (block_offset bx byy blocks_down) with
  | b0 :: b1 :: b2 :: b3 :: rest =>
    match readRows 8 rest with
    | some (cells, _) => .ok (decodeI32LE b0 b1 b2 b3, cells)
    | none => .error .TruncatedBlock
  | _ => .error .TruncatedBlock

/-- AxonometricLabv0 make_map_and_statics:
tile_bytes = struct.pack("<Hb", default_land, default_z). -/
def tile_bytes (default_land : Nat) (default_z : Int) : List Nat :=
  packU16LE default_land ++ packI8 default_z

/-- AxonometricLabv0 make_map_and_statics:
one_block = block_header ++ tile_bytes * 64. -/
def one_block (default_land : Nat) (default_z : Int) : List Nat :=
  packI32LE 0 ++ (List.replicate 64 (tile_bytes default_land default_z)).flatten

/-- AxonometricLabv0 make_map_and_statics: block_count = blocks_x *
blocks_y with blocks_x = width // 8 and blocks_y = height // 8. -/
def block_count (width height : Nat) : Nat := (width / 8) * (height / 8)

/-- AxonometricLabv0 make_map_and_statics, write_map: one_block repeated
block_count times. -/
def map_container (width height default_land : Nat) (default_z : Int) :
    List Nat :=
  (List.replicate (block_count width height) (one_block default_land default_z)).flatten

/-- AxonometricLabv0 make_map_and_statics:
empty_staidx = struct.pack("<iii", -1, 0, 0). -/
def empty_staidx : List Nat := packI32LE (-1) ++ packI32LE 0 ++ packI32LE 0

/-- AxonometricLabv0 make_map_and_statics, write_staidx: empty_staidx
repeated block_count times. -/
def staidx_container (width height : Nat) : List Nat :=
  (List.replicate (block_count width height) empty_staidx).flatten

/-- AxonometricLabv0 make_map_and_statics: statics container written as
the empty byte string. -/
def statics_container : List Nat := []

/-- Twenty zero name bytes shared by the tiledata entries. -/
def NAME20_ZERO : List Nat := List.replicate 20 0

/-- AxonometricLabv0 make_tiledata_mul, land entry: flags u32, texture
id u16, name[20]. -/
def land_entry : List Nat := packU32LE 0 ++ packU16LE 0 ++ NAME20_ZERO

/-- AxonometricLabv0 make_tiledata_mul, land group: u32 header plus 32
land entries. -/
def land_group : List Nat := packU32LE 0 ++ (List.replicate 32 land_entry).flatten

/-- AxonometricLabv0 make_tiledata_mul, static entry: flags u32, weight,
quality, unknown u16, unknown1, quantity, animid u16, unknown2, hue,
unknown3 u16, height i8, name[20]. -/
def static_entry : List Nat :=
  packU32LE 0 ++ packU8 0 ++ packU8 0 ++ packU16LE 0 ++ packU8 0 ++ packU8 0 ++
  packU16LE 0 ++ packU8 0 ++ packU8 0 ++ packU16LE 0 ++ packI8 0 ++ NAME20_ZERO

/-- AxonometricLabv0 make_tiledata_mul, static group: u32 header plus 32
static entries. -/
def static_group : List Nat :=
  packU32LE 0 ++ (List.replicate 32 static_entry).flatten

/-- AxonometricLabv0 make_tiledata_mul: 512 land groups then 2048 static
groups, counts fixed in the source (LAND_GROUPS, STATIC_GROUPS). -/
def tiledata_container : List Nat :=
  (List.replicate 512 land_group).flatten ++ (List.replicate 2048 static_group).flatten

/-- AxonometricLabv0 make_artidx_mul:
record = struct.pack("<III", 0xFFFFFFFF, 0, 0). -/
def artidx_record : List Nat :=
  packU32LE 0xFFFFFFFF ++ packU32LE 0 ++ packU32LE 0

/-- AxonometricLabv0 make_artidx_mul body: record * idx_entries. -/
def artidx_container (idx_entries : Nat) : List Nat :=
  (List.replicate idx_entries artidx_record).flatten

/-- Default of the idx_entries parameter of make_artidx_mul (and of the
--artidx-entries command line option). -/
def artidx_entries_default : Nat := 0x14000

/-- Modelled from the spec: the primitive decode contract of section 4.1
for a 12-byte ArtIndexEntry record (three little-endian uint32 fields,
short input fails); the repository has no art-index decoder in src. -/
def decodeArtIdxRecord (l : List Nat) : Option (Nat × Nat × Nat) :=
  match l with
  | [a0, a1, a2, a3, b0, b1, b2, b3, c0, c1, c2, c3] =>
    some (a0 + 256 * a1 + 65536 * a2 + 16777216 * a3,
          b0 + 256 * b1 + 65536 * b2 + 16777216 * b3,
          c0 + 256 * c1 + 65536 * c2 + 16777216 * c3)
  | _ => none

/-- AxonometricLabv0 require_multiple_of_8: value must be positive and
divisible by 8; both raise sites map to InvalidDimension. -/
def require_multiple_of_8 (value : Int) : Except MulErr Unit :=
  if value ≤ 0 then .error .InvalidDimension
  else if value % 8 ≠ 0 then .error .InvalidDimension
  else .ok ()

/-- The validation prologue of make_map_and_statics, checks in source
order: width, height, facet, default_land, default_z. -/
def validate_map_params (facet width height default_land default_z : Int) :
    Except MulErr Unit :=
  match require_multiple_of_8 width with
  | .error e => .error e
  | .ok _ =>
    match require_multiple_of_8 height with
    | .error e => .error e
    | .ok _ =>
      if facet < 0 ∨ 255 < facet then .error .InvalidFacet
      else if default_land < 0 ∨ 0x3FFF < default_land then .error .InvalidTileId
      else if default_z < -128 ∨ 127 < default_z then .error .InvalidAltitude
      else .ok ()

/-- AxonometricLabv0 write_file / write_streamed destination check: fail
with DestinationExists when the path exists (initially or among the
writes performed so far) and force is off; otherwise record the write. -/
def write_step (force : Bool) (fs0 written : List String) (path : String) :
    Except MulErr (List String) :=
  if (path ∈ fs0 ∨ path ∈ written) ∧ force = false then .error .DestinationExists
  else .ok (written ++ [path])

/-- Sequence of write_step calls over a list of destination paths,
stopping at the first failure and reporting the writes performed. -/
def write_many (force : Bool) (fs0 : List String) :
    List String → List String → List String × Option MulErr
  | written, [] => (written, none)
  | written, p :: ps =>
    match write_step force fs0 written p with
    | .error e => (written, some e)
    | .ok w2 => write_many force fs0 w2 ps

/-- AxonometricLabv0 main: writes art.mul, artidx.mul, tiledata.mul,
hues.mul, radarcol.mul in that order, then calls make_map_and_statics,
which validates its parameters and only then writes map{facet}.mul,
staidx{facet}.mul, statics{facet}.mul.  Result: the artifacts written,
in order, paired with the first error if any. -/
def main_pipeline (force : Bool) (fs0 : List String)
    (facet width height default_land default_z : Int) :
    List String × Option MulErr :=
  match write_many force fs0 []
      ["art.mul", "artidx.mul", "tiledata.mul", "hues.mul", "radarcol.mul"] with
  | (w, some e) => (w, some e)
  | (w, none) =>
    match validate_map_params facet width height default_land default_z with
    | .error e => (w, some e)
    | .ok _ =>
      write_many force fs0 w
        [s!"map{facet}.mul", s!"staidx{facet}.mul", s!"statics{facet}.mul"]

/-! ## General helper lemmas about joined replicated byte lists -/

theorem length_flatten_replicate {α : Type} (n : Nat) (l : List α) :
    (List.replicate n l).flatten.length = n * l.length := by
  induction n with
  | zero => simp
  | succ k ih =>
    simp [List.replicate_succ, ih, Nat.succ_mul, Nat.add_comm]

theorem drop_flatten_replicate {α : Type} (k : Nat) (l : List α) (rest : List α) :
    ((List.replicate k l).flatten ++ rest).drop (k * l.length) = rest := by
  induction k with
  | zero => simp
  | succ m ih =>
    have hmul : (m + 1) * l.length = l.length + m * l.length := by ring
    rw [List.replicate_succ, List.flatten_cons, List.append_assoc, hmul,
      ← List.drop_drop, List.drop_left]
    exact ih

theorem flatten_replicate_split {α : Type} (n k : Nat) (h : k ≤ n) (l : List α) :
    (List.replicate n l).flatten =
      (List.replicate k l).flatten ++ (List.replicate (n - k) l).flatten := by
  conv_lhs => rw [show n = k + (n - k) by omega]
  rw [List.replicate_add, List.flatten_append]

/-! ## Claim theorems -/

/-- C2: the block address resolver returns byte offset
((bx * blocks_down) + byy) * 196, with BLOCK_SIZE_BYTES = 196
(column-major: x outer, y inner). -/
theorem block_offset_spec :
    (∀ bx byy blocks_down : Nat,
       block_offset bx byy blocks_down = ((bx * blocks_down) + byy) * 196) ∧
    BLOCK_SIZE_BYTES = 196 :=
  ⟨fun _ _ _ => rfl, rfl⟩

/-- C10: dimension inference accepts a zero-length file: 0 is a multiple
of 196, no table entry has product 0, and the heuristic fallback returns
blocks_across = 0, blocks_down = 0, total_blocks = 0. -/
theorem autodetect_zero_ok :
    autodetect_block_dims 0 = .ok (0, 0, "Heuristic", 0) := rfl

theorem flatten_replicate_replicate (n k : Nat) :
    (List.replicate n (List.replicate k (0 : Nat))).flatten =
      List.replicate (n * k) 0 := by
  induction n with
  | zero => simp
  | succ m ih =>
    rw [List.replicate_succ, List.flatten_cons, ih, ← List.replicate_add]
    congr 1
    ring

theorem slice_flatten_replicate {α : Type} (n i : Nat) (hi : i < n) (l : List α) :
    (((List.replicate n l).flatten.drop (i * l.length)).take l.length) = l := by
  rw [flatten_replicate_split n i (le_of_lt hi), drop_flatten_replicate,
    show n - i = (n - i - 1) + 1 from by omega, List.replicate_succ,
    List.flatten_cons, List.take_left]

theorem require8_ok (v : Int) (h1 : 0 < v) (h2 : v % 8 = 0) :
    require_multiple_of_8 v = .ok () := by
  rw [require_multiple_of_8, if_neg (by omega), if_neg (by simp [h2])]

theorem require8_err (v : Int) (h : ¬(0 < v ∧ v % 8 = 0)) :
    require_multiple_of_8 v = .error .InvalidDimension := by
  rw [require_multiple_of_8]
  by_cases h1 : v ≤ 0
  · rw [if_pos h1]
  · rw [if_neg h1, if_pos (by push_neg at h; exact h (by omega))]

/-- C3 amended: dimension inference fails with MisalignedFileSize
exactly when file_size is not a multiple of 196; otherwise, with total
= file_size / 196, a successful result is either the unique
known-dimensions table entry whose product equals total (its label
distinct from the heuristic's), or, when no table entry matches, the
truncated float64 square root int(math.sqrt(total)) for both
dimensions, labelled Heuristic. -/
theorem autodetect_block_dims_spec (fs : Nat) :
    (autodetect_block_dims fs = .error .MisalignedFileSize ↔ fs % 196 ≠ 0) ∧
    (∀ ax ay label total,
      autodetect_block_dims fs = .ok (ax, ay, label, total) →
      fs % 196 = 0 ∧ total = fs / 196 ∧
      ((((ax, ay), label) ∈ KNOWN_BLOCK_DIMS ∧ ax * ay = total ∧
          label ≠ "Heuristic" ∧
          (∀ q, q ∈ KNOWN_BLOCK_DIMS → q.1.1 * q.1.2 = total →
            q = ((ax, ay), label))) ∨
       (label = "Heuristic" ∧ int_math_sqrt total = some ax ∧ ay = ax ∧
          (∀ q, q ∈ KNOWN_BLOCK_DIMS → q.1.1 * q.1.2 ≠ total)))) := by
  have huniq : ∀ q ∈ KNOWN_BLOCK_DIMS, ∀ r ∈ KNOWN_BLOCK_DIMS,
      q.1.1 * q.1.2 = r.1.1 * r.1.2 → q = r := by decide
  have hlab : ∀ q ∈ KNOWN_BLOCK_DIMS, q.2 ≠ "Heuristic" := by decide
  by_cases hmod : fs % 196 = 0
  · have h1 : autodetect_block_dims fs =
        match KNOWN_BLOCK_DIMS.find? (fun e => e.1.1 * e.1.2 == fs / 196) with
        | some ((ax, ay), label) => .ok (ax, ay, label, fs / 196)
        | none =>
          match int_math_sqrt (fs / 196) with
          | some r => .ok (r, r, "Heuristic", fs / 196)
          | none => .error .FloatOverflow := by
      simp [autodetect_block_dims, BLOCK_SIZE_BYTES, hmod]
    cases hfind : KNOWN_BLOCK_DIMS.find? (fun e => e.1.1 * e.1.2 == fs / 196) with
    | none =>
      rw [hfind] at h1
      have hnm := List.find?_eq_none.mp hfind
      cases hsq : int_math_sqrt (fs / 196) with
      | none =>
        rw [hsq] at h1
        constructor
        · rw [h1]; simp [hmod]
        · intro ax ay label total hok
          rw [h1] at hok
          exact absurd hok (by simp)
      | some r =>
        rw [hsq] at h1
        constructor
        · rw [h1]; simp [hmod]
        · intro ax ay label total hok
          rw [h1] at hok
          simp only [Except.ok.injEq, Prod.mk.injEq] at hok
          obtain ⟨hax, hay, hlabel, htot⟩ := hok
          subst hax; subst hlabel; subst htot
          refine ⟨hmod, rfl, Or.inr ⟨rfl, hsq, hay.symm, ?_⟩⟩
          intro q hq
          have := hnm q hq
          simpa using this
    | some e =>
      obtain ⟨⟨a, b⟩, s⟩ := e
      rw [hfind] at h1
      have hmem := List.mem_of_find?_eq_some hfind
      have hpa : a * b = fs / 196 := by
        have := List.find?_some hfind
        simpa using this
      constructor
      · rw [h1]; simp [hmod]
      · intro ax ay label total hok
        rw [h1] at hok
        simp only [Except.ok.injEq, Prod.mk.injEq] at hok
        obtain ⟨hax, hay, hlabel, htot⟩ := hok
        subst hax; subst hay; subst hlabel; subst htot
        refine ⟨hmod, rfl, Or.inl ⟨hmem, hpa, hlab _ hmem, ?_⟩⟩
        intro q hq hprod
        exact huniq q hq ((a, b), s) hmem (by rw [hprod]; exact hpa.symm)
  · have h1 : autodetect_block_dims fs = .error .MisalignedFileSize := by
      simp [autodetect_block_dims, BLOCK_SIZE_BYTES, hmod]
    refine ⟨by simp [h1, hmod], ?_⟩
    intro ax ay label total hok
    rw [h1] at hok
    exact absurd hok (by simp)

theorem autodetect_block_dims_spec_witness :
    autodetect_block_dims 100 = .error .MisalignedFileSize ∧
    (77070336 % 196 = 0 ∧ 393216 = 77070336 / 196 ∧
      ((((768, 512), "Classic rectangular (map0/map1 style)") ∈
          KNOWN_BLOCK_DIMS ∧ 768 * 512 = 393216 ∧
          "Classic rectangular (map0/map1 style)" ≠ "Heuristic" ∧
          (∀ q, q ∈ KNOWN_BLOCK_DIMS → q.1.1 * q.1.2 = 393216 →
            q = ((768, 512), "Classic rectangular (map0/map1 style)"))) ∨
       ("Classic rectangular (map0/map1 style)" = "Heuristic" ∧
          int_math_sqrt 393216 = some 768 ∧ 512 = 768 ∧
          (∀ q, q ∈ KNOWN_BLOCK_DIMS → q.1.1 * q.1.2 ≠ 393216)))) :=
  ⟨(autodetect_block_dims_spec 100).1.mpr (by decide),
   (autodetect_block_dims_spec 77070336).2 768 512
     "Classic rectangular (map0/map1 style)" 393216 rfl⟩

set_option maxRecDepth 8192 in
/-- C3 counterexample: the file size 196*(2^54-1) is a multiple of 196
matching no table entry, and there the program returns the heuristic
pair (2^27, 2^27) because float64 conversion rounds 2^54-1 up to 2^54,
while the floor square root of 2^54-1 is 2^27-1; so the fallback does
not return floor(sqrt(total_blocks)) for every file size. -/
theorem autodetect_float_fallback_counterexample :
    autodetect_block_dims (196 * (2 ^ 54 - 1)) =
      .ok (134217728, 134217728, "Heuristic", 2 ^ 54 - 1) ∧
    Nat.sqrt (2 ^ 54 - 1) = 134217727 ∧
    autodetect_block_dims (196 * (2 ^ 54 - 1)) ≠
      .ok (Nat.sqrt (2 ^ 54 - 1), Nat.sqrt (2 ^ 54 - 1), "Heuristic",
        2 ^ 54 - 1) := by
  have h2 : Nat.sqrt (2 ^ 54 - 1) = 134217727 := by
    have hlt : Nat.sqrt (2 ^ 54 - 1) < 134217728 :=
      Nat.sqrt_lt.mpr (by norm_num)
    have hge : 134217727 ≤ Nat.sqrt (2 ^ 54 - 1) :=
      Nat.le_sqrt.mpr (by norm_num)
    omega
  have h1 : autodetect_block_dims (196 * (2 ^ 54 - 1)) =
      .ok (134217728, 134217728, "Heuristic", 2 ^ 54 - 1) := rfl
  refine ⟨h1, h2, ?_⟩
  rw [h1, h2]
  simp

/-- C8: pre-write validation of the map writer: width=8, height=8 passes
and yields exactly 1 block; a width or height that is not a positive
multiple of 8 fails with InvalidDimension; with valid dimensions, a
facet outside [0,255] fails with InvalidFacet; then a default tile id
outside [0, 0x3FFF] fails with InvalidTileId; then a default altitude
outside [-128,127] fails with InvalidAltitude. -/
theorem validate_map_params_spec :
    block_count 8 8 = 1 ∧
    validate_map_params 0 8 8 0 0 = .ok () ∧
    (∀ f w h l z : Int, (¬(0 < w ∧ w % 8 = 0) ∨ ¬(0 < h ∧ h % 8 = 0)) →
       validate_map_params f w h l z = .error .InvalidDimension) ∧
    (∀ f w h l z : Int, 0 < w → w % 8 = 0 → 0 < h → h % 8 = 0 →
       (f < 0 ∨ 255 < f) →
       validate_map_params f w h l z = .error .InvalidFacet) ∧
    (∀ f w h l z : Int, 0 < w → w % 8 = 0 → 0 < h → h % 8 = 0 →
       0 ≤ f → f ≤ 255 → (l < 0 ∨ 16383 < l) →
       validate_map_params f w h l z = .error .InvalidTileId) ∧
    (∀ f w h l z : Int, 0 < w → w % 8 = 0 → 0 < h → h % 8 = 0 →
       0 ≤ f → f ≤ 255 → 0 ≤ l → l ≤ 16383 → (z < -128 ∨ 127 < z) →
       validate_map_params f w h l z = .error .InvalidAltitude) := by
  refine ⟨rfl, rfl, ?_, ?_, ?_, ?_⟩
  · intro f w h l z hd
    rcases hd with hw | hh
    · simp [validate_map_params, require8_err w hw]
    · by_cases hw' : 0 < w ∧ w % 8 = 0
      · simp [validate_map_params, require8_ok w hw'.1 hw'.2,
          require8_err h hh]
      · simp [validate_map_params, require8_err w hw']
  · intro f w h l z hw1 hw2 hh1 hh2 hf
    simp only [validate_map_params, require8_ok w hw1 hw2,
      require8_ok h hh1 hh2]
    rw [if_pos hf]
  · intro f w h l z hw1 hw2 hh1 hh2 hf1 hf2 hl
    simp only [validate_map_params, require8_ok w hw1 hw2,
      require8_ok h hh1 hh2]
    rw [if_neg (by omega), if_pos (by omega)]
  · intro f w h l z hw1 hw2 hh1 hh2 hf1 hf2 hl1 hl2 hz
    simp only [validate_map_params, require8_ok w hw1 hw2,
      require8_ok h hh1 hh2]
    rw [if_neg (by omega), if_neg (by omega), if_pos (by omega)]

theorem validate_map_params_spec_witness :
    validate_map_params 0 7 8 0 0 = .error .InvalidDimension ∧
    validate_map_params 256 8 8 0 0 = .error .InvalidFacet ∧
    validate_map_params 0 8 8 16384 0 = .error .InvalidTileId ∧
    validate_map_params 0 8 8 0 128 = .error .InvalidAltitude :=
  ⟨validate_map_params_spec.2.2.1 0 7 8 0 0 (Or.inl (by omega)),
   validate_map_params_spec.2.2.2.1 256 8 8 0 0 (by omega) (by omega)
     (by omega) (by omega) (Or.inr (by omega)),
   validate_map_params_spec.2.2.2.2.1 0 8 8 16384 0 (by omega) (by omega)
     (by omega) (by omega) (by omega) (by omega) (Or.inr (by omega)),
   validate_map_params_spec.2.2.2.2.2 0 8 8 0 128 (by omega) (by omega)
     (by omega) (by omega) (by omega) (by omega) (by omega) (by omega)
     (Or.inr (by omega))⟩

/-- C4 counterexample: running the pipeline with force and an invalid
map width (7) fails validation, yet five artifacts have already been
written, refuting all-validate-before-any-write. -/
theorem main_pipeline_partial_write :
    (main_pipeline true [] 0 7 8 0 0).2 = some MulErr.InvalidDimension ∧
    (main_pipeline true [] 0 7 8 0 0).1 =
      ["art.mul", "artidx.mul", "tiledata.mul", "hues.mul", "radarcol.mul"] ∧
    (main_pipeline true [] 0 7 8 0 0).1 ≠ [] := by
  refine ⟨rfl, rfl, by decide⟩

theorem write_many_writes_subset (force : Bool) (fs0 : List String) :
    ∀ (ps written : List String) (p : String),
      p ∈ (write_many force fs0 written ps).1 → p ∈ written ∨ p ∈ ps := by
  intro ps
  induction ps with
  | nil =>
    intro written p hp
    exact Or.inl hp
  | cons q ps ih =>
    intro written p hp
    unfold write_many at hp
    cases hws : write_step force fs0 written q with
    | error e =>
      rw [hws] at hp
      exact Or.inl hp
    | ok w2 =>
      rw [hws] at hp
      have hw2 : w2 = written ++ [q] := by
        rw [write_step] at hws
        split at hws
        · exact absurd hws (by simp)
        · injection hws with h
          exact h.symm
      rcases ih w2 p hp with h | h
      · rw [hw2] at h
        rcases List.mem_append.mp h with h' | h'
        · exact Or.inl h'
        · simp at h'
          exact Or.inr (by simp [h'])
      · exact Or.inr (List.mem_cons_of_mem _ h)

/-- C4 amended: the map writer's parameter validation runs before any of
the map, static-index, or static-data artifacts are written, so on a
validation failure only the five earlier pipeline artifacts can have
been written. -/
theorem map_validation_before_map_writes (force : Bool) (fs0 : List String)
    (facet width height l z : Int) (e : MulErr)
    (hv : validate_map_params facet width height l z = .error e) :
    ∀ p ∈ (main_pipeline force fs0 facet width height l z).1,
      p ∈ ["art.mul", "artidx.mul", "tiledata.mul", "hues.mul",
           "radarcol.mul"] := by
  intro p hp
  rw [main_pipeline] at hp
  cases hwm : write_many force fs0 []
      ["art.mul", "artidx.mul", "tiledata.mul", "hues.mul", "radarcol.mul"] with
  | mk w oe =>
    rw [hwm] at hp
    cases oe with
    | some e2 =>
      have hpw : p ∈ w := hp
      rcases write_many_writes_subset force fs0 _ [] p
          (by rw [hwm]; exact hpw) with h | h
      · exact absurd h (by simp)
      · exact h
    | none =>
      rw [hv] at hp
      have hpw : p ∈ w := hp
      rcases write_many_writes_subset force fs0 _ [] p
          (by rw [hwm]; exact hpw) with h | h
      · exact absurd h (by simp)
      · exact h

theorem map_validation_before_map_writes_witness :
    "art.mul" ∈ (main_pipeline true [] 0 7 8 0 0).1 ∧
    "art.mul" ∈ (["art.mul", "artidx.mul", "tiledata.mul", "hues.mul",
      "radarcol.mul"] : List String) :=
  ⟨by decide,
   map_validation_before_map_writes true [] 0 7 8 0 0 .InvalidDimension rfl
     "art.mul" (by decide)⟩

theorem land_group_blank : land_group = List.replicate 836 0 := by
  rw [land_group, show land_entry = List.replicate 26 (0 : Nat) from rfl,
    flatten_replicate_replicate,
    show packU32LE 0 = List.replicate 4 (0 : Nat) from rfl,
    ← List.replicate_add]

theorem static_group_blank : static_group = List.replicate 1188 0 := by
  rw [static_group, show static_entry = List.replicate 37 (0 : Nat) from rfl,
    flatten_replicate_replicate,
    show packU32LE 0 = List.replicate 4 (0 : Nat) from rfl,
    ← List.replicate_add]

/-- C5: the tiledata container (512 land groups of 836 bytes followed by
2048 static groups of 1188 bytes, no configurable counts) is exactly
512*836 + 2048*1188 all-zero bytes. -/
theorem tiledata_container_blank :
    tiledata_container = List.replicate (512 * 836 + 2048 * 1188) 0 := by
  rw [tiledata_container, land_group_blank, static_group_blank,
    flatten_replicate_replicate, flatten_replicate_replicate,
    ← List.replicate_add]

/-- C6: for every entry count N the art index container is exactly 12*N
bytes, N concatenated sentinel records each decoding to
(0xFFFFFFFF, 0, 0), and the default N is 0x14000. -/
theorem artidx_container_spec (N : Nat) :
    (artidx_container N).length = 12 * N ∧
    (∀ i, i < N →
      ((artidx_container N).drop (12 * i)).take 12 = artidx_record ∧
      decodeArtIdxRecord (((artidx_container N).drop (12 * i)).take 12) =
        some (0xFFFFFFFF, 0, 0)) ∧
    artidx_entries_default = 0x14000 := by
  have hlen : artidx_record.length = 12 := rfl
  have hslice : ∀ i, i < N →
      ((artidx_container N).drop (12 * i)).take 12 = artidx_record := by
    intro i hi
    have := slice_flatten_replicate N i hi artidx_record
    rw [hlen] at this
    rw [artidx_container, Nat.mul_comm 12 i]
    exact this
  refine ⟨?_, fun i hi => ⟨hslice i hi, ?_⟩, rfl⟩
  · rw [artidx_container, length_flatten_replicate, hlen, Nat.mul_comm]
  · rw [hslice i hi]
    decide

theorem artidx_container_spec_witness :
    (artidx_container 1).length = 12 * 1 ∧
    ((artidx_container 1).drop (12 * 0)).take 12 = artidx_record ∧
    decodeArtIdxRecord (((artidx_container 1).drop (12 * 0)).take 12) =
      some (0xFFFFFFFF, 0, 0) :=
  ⟨(artidx_container_spec 1).1,
   ((artidx_container_spec 1).2.1 0 (by decide)).1,
   ((artidx_container_spec 1).2.1 0 (by decide)).2⟩

theorem one_block_length (T : Nat) (A : Int) : (one_block T A).length = 196 := by
  rw [one_block, List.length_append, length_flatten_replicate]
  simp [packI32LE, packU32LE, tile_bytes, packU16LE, packI8]

/-- C7: for every valid geometry the map container is exactly
(w/8)*(h/8)*196 bytes, the static-index container is exactly
(w/8)*(h/8)*12 bytes made of one sentinel (-1, 0, 0) entry per block,
and the static-data container is zero-length. -/
theorem container_sizes_spec (w h T : Nat) (A : Int)
    (hw : 0 < w) (hw8 : w % 8 = 0) (hh : 0 < h) (hh8 : h % 8 = 0) :
    (map_container w h T A).length = (w / 8) * (h / 8) * 196 ∧
    (staidx_container w h).length = (w / 8) * (h / 8) * 12 ∧
    (∀ i, i < (w / 8) * (h / 8) →
      ((staidx_container w h).drop (12 * i)).take 12 = empty_staidx) ∧
    empty_staidx = [255, 255, 255, 255, 0, 0, 0, 0, 0, 0, 0, 0] ∧
    statics_container = [] := by
  have hes : empty_staidx.length = 12 := rfl
  refine ⟨?_, ?_, ?_, by decide, rfl⟩
  · rw [map_container, length_flatten_replicate, one_block_length, block_count]
  · rw [staidx_container, length_flatten_replicate, hes, block_count]
  · intro i hi
    have := slice_flatten_replicate ((w / 8) * (h / 8)) i hi empty_staidx
    rw [hes] at this
    rw [staidx_container, block_count, Nat.mul_comm 12 i]
    exact this

theorem container_sizes_spec_witness :
    (map_container 16 8 0 0).length = (16 / 8) * (8 / 8) * 196 ∧
    (staidx_container 16 8).length = (16 / 8) * (8 / 8) * 12 ∧
    ((staidx_container 16 8).drop (12 * 0)).take 12 = empty_staidx :=
  ⟨(container_sizes_spec 16 8 0 0 (by decide) (by decide) (by decide)
      (by decide)).1,
   (container_sizes_spec 16 8 0 0 (by decide) (by decide) (by decide)
      (by decide)).2.1,
   (container_sizes_spec 16 8 0 0 (by decide) (by decide) (by decide)
      (by decide)).2.2.1 0 (by decide)⟩

theorem readCells_some (n : Nat) : ∀ l : List Nat, 3 * n ≤ l.length →
    ∃ cs, readCells n l = some (cs, l.drop (3 * n)) ∧ cs.length = n := by
  induction n with
  | zero => intro l _; exact ⟨[], by simp [readCells], rfl⟩
  | succ m ih =>
    intro l h
    cases l with
    | nil => simp at h
    | cons b0 t0 =>
      cases t0 with
      | nil => simp at h; omega
      | cons b1 t1 =>
        cases t1 with
        | nil => simp at h; omega
        | cons b2 rest =>
          have hr : 3 * m ≤ rest.length := by simp at h; omega
          obtain ⟨cs, hcs, hlen⟩ := ih rest hr
          refine ⟨(b0 + 256 * b1, decodeI8 b2) :: cs, ?_, by simp [hlen]⟩
          have hdrop : (b0 :: b1 :: b2 :: rest).drop (3 * (m + 1)) =
              rest.drop (3 * m) := by
            rw [show 3 * (m + 1) = 3 * m + 1 + 1 + 1 from by ring]
            rfl
          simp only [readCells, readCell, hcs, hdrop]

theorem readCells_none (n : Nat) : ∀ l : List Nat, l.length < 3 * n →
    readCells n l = none := by
  induction n with
  | zero => intro l h; simp at h
  | succ m ih =>
    intro l h
    cases l with
    | nil => simp [readCells, readCell]
    | cons b0 t0 =>
      cases t0 with
      | nil => simp [readCells, readCell]
      | cons b1 t1 =>
        cases t1 with
        | nil => simp [readCells, readCell]
        | cons b2 rest =>
          have hr : rest.length < 3 * m := by simp at h; omega
          simp only [readCells, readCell, ih rest hr]

theorem readRows_some (k : Nat) : ∀ l : List Nat, 24 * k ≤ l.length →
    ∃ rows, readRows k l = some (rows, l.drop (24 * k)) ∧ rows.length = k ∧
      ∀ r ∈ rows, r.length = 8 := by
  induction k with
  | zero => intro l _; exact ⟨[], by simp [readRows], rfl, by simp⟩
  | succ m ih =>
    intro l h
    have h8 : 3 * 8 ≤ l.length := by omega
    obtain ⟨row, hrow, hrowlen⟩ := readCells_some 8 l h8
    have hm : 24 * m ≤ (l.drop (3 * 8)).length := by simp; omega
    obtain ⟨rows, hrows, hrl, hall⟩ := ih (l.drop (3 * 8)) hm
    refine ⟨row :: rows, ?_, by simp [hrl], ?_⟩
    · simp only [readRows, hrow, hrows, List.drop_drop]
      rw [show 3 * 8 + 24 * m = 24 * (m + 1) from by ring]
    · intro r hr
      rcases List.mem_cons.mp hr with h' | h'
      · rw [h']; exact hrowlen
      · exact hall r h'

theorem readRows_none (k : Nat) : ∀ l : List Nat, l.length < 24 * k →
    readRows k l = none := by
  induction k with
  | zero => intro l h; simp at h
  | succ m ih =>
    intro l h
    by_cases h8 : 3 * 8 ≤ l.length
    · obtain ⟨row, hrow, _⟩ := readCells_some 8 l h8
      have hm : (l.drop (3 * 8)).length < 24 * m := by simp; omega
      simp only [readRows, hrow, ih _ hm]
    · have hs : l.length < 3 * 8 := by omega
      simp only [readRows, readCells_none 8 l hs]

/-- C9: the block reader is total and never partial: it returns
TruncatedBlock exactly when fewer bytes than the full 196 are available
past the block offset, and otherwise a complete block of a header and
8 rows of 8 decoded cells. -/
theorem read_block_total (file : List Nat) (bx byy bd : Nat) :
    (file.length < block_offset bx byy bd + 196 ∧
       read_block file bx byy bd = .error .TruncatedBlock) ∨
    (block_offset bx byy bd + 196 ≤ file.length ∧
       ∃ hdr cells, read_block file bx byy bd = .ok (hdr, cells) ∧
         cells.length = 8 ∧ ∀ row ∈ cells, row.length = 8) := by
  have hld : (file.drop (block_offset bx byy bd)).length =
      file.length - block_offset bx byy bd :=
    List.length_drop _ _
  cases hds : file.drop (block_offset bx byy bd) with
  | nil =>
    rw [hds] at hld
    left
    exact ⟨by simp at hld; omega, by simp only [read_block, hds]⟩
  | cons b0 t0 =>
    cases t0 with
    | nil =>
      rw [hds] at hld
      left
      exact ⟨by simp at hld; omega, by simp only [read_block, hds]⟩
    | cons b1 t1 =>
      cases t1 with
      | nil =>
        rw [hds] at hld
        left
        exact ⟨by simp at hld; omega, by simp only [read_block, hds]⟩
      | cons b2 t2 =>
        cases t2 with
        | nil =>
          rw [hds] at hld
          left
          exact ⟨by simp at hld; omega, by simp only [read_block, hds]⟩
        | cons b3 rest =>
          rw [hds] at hld
          simp only [List.length_cons] at hld
          by_cases hbig : block_offset bx byy bd + 196 ≤ file.length
          · right
            have h192 : 24 * 8 ≤ rest.length := by omega
            obtain ⟨rows, hrows, hrl, hall⟩ := readRows_some 8 rest h192
            exact ⟨hbig, decodeI32LE b0 b1 b2 b3, rows,
              by simp only [read_block, hds, hrows], hrl, hall⟩
          · left
            have h192 : rest.length < 24 * 8 := by omega
            exact ⟨by omega,
              by simp only [read_block, hds, readRows_none 8 rest h192]⟩

theorem read_block_total_witness :
    (([] : List Nat).length < block_offset 0 0 0 + 196 ∧
       read_block [] 0 0 0 = .error .TruncatedBlock) ∨
    (block_offset 0 0 0 + 196 ≤ ([] : List Nat).length ∧
       ∃ hdr cells, read_block [] 0 0 0 = .ok (hdr, cells) ∧
         cells.length = 8 ∧ ∀ row ∈ cells, row.length = 8) :=
  read_block_total [] 0 0 0

theorem readCell_tile_bytes (T : Nat) (A : Int) (hT : T < 65536)
    (hA1 : -128 ≤ A) (hA2 : A ≤ 127) (rest : List Nat) :
    readCell (tile_bytes T A ++ rest) = some ((T, A), rest) := by
  have h0 : (0 : Int) ≤ A % 256 := Int.emod_nonneg A (by norm_num)
  have hcast : ((A % 256).toNat : Int) = A % 256 := Int.toNat_of_nonneg h0
  have ht : T % 256 + 256 * (T / 256 % 256) = T := by omega
  have ha : decodeI8 (A % 256).toNat = A := by
    rw [decodeI8]
    split
    · next hlt => omega
    · next hge => omega
  simp [tile_bytes, packU16LE, packI8, readCell, ht, ha]

theorem readCells_replicate (T : Nat) (A : Int) (hT : T < 65536)
    (hA1 : -128 ≤ A) (hA2 : A ≤ 127) :
    ∀ (m : Nat) (rest : List Nat),
      readCells m ((List.replicate m (tile_bytes T A)).flatten ++ rest) =
        some (List.replicate m (T, A), rest) := by
  intro m
  induction m with
  | zero => intro rest; simp [readCells]
  | succ k ih =>
    intro rest
    rw [List.replicate_succ, List.flatten_cons, List.append_assoc]
    simp only [readCells, readCell_tile_bytes T A hT hA1 hA2, ih rest,
      List.replicate_succ]

theorem readRows_replicate (T : Nat) (A : Int) (hT : T < 65536)
    (hA1 : -128 ≤ A) (hA2 : A ≤ 127) :
    ∀ (k : Nat) (rest : List Nat),
      readRows k ((List.replicate (8 * k) (tile_bytes T A)).flatten ++ rest) =
        some (List.replicate k (List.replicate 8 (T, A)), rest) := by
  intro k
  induction k with
  | zero => intro rest; simp [readRows]
  | succ m ih =>
    intro rest
    rw [show 8 * (m + 1) = 8 + 8 * m from by ring, List.replicate_add,
      List.flatten_append, List.append_assoc]
    simp only [readRows, readCells_replicate T A hT hA1 hA2 8, ih rest]
    rfl

theorem mul_add_lt_mul (a A b B : Nat) (ha : a < A) (hb : b < B) :
    a * B + b < A * B :=
  calc a * B + b < a * B + B := by omega
    _ = (a + 1) * B := by ring
    _ ≤ A * B := Nat.mul_le_mul_right B (by omega)

/-- C1: writing the map container with defaults (T, A) over a valid
geometry and reading any in-range block with blocks_down = height/8
returns header 0 and 64 cells (8 rows of 8) all equal to (T, A). -/
theorem map_round_trip (w h T : Nat) (A : Int)
    (hw : 0 < w) (hw8 : w % 8 = 0) (hh : 0 < h) (hh8 : h % 8 = 0)
    (hT : T ≤ 16383) (hA1 : -128 ≤ A) (hA2 : A ≤ 127)
    (bx byy : Nat) (hbx : bx < w / 8) (hby : byy < h / 8) :
    read_block (map_container w h T A) bx byy (h / 8) =
      .ok (0, List.replicate 8 (List.replicate 8 (T, A))) := by
  have hT' : T < 65536 := by omega
  have hlt : bx * (h / 8) + byy < block_count w h :=
    mul_add_lt_mul bx (w / 8) byy (h / 8) hbx hby
  have hob : (one_block T A).length = 196 := one_block_length T A
  have hoff : block_offset bx byy (h / 8) =
      (bx * (h / 8) + byy) * (one_block T A).length := by
    rw [block_offset, BLOCK_SIZE_BYTES, hob]
  have hdrop : (map_container w h T A).drop (block_offset bx byy (h / 8)) =
      (List.replicate (block_count w h - (bx * (h / 8) + byy))
        (one_block T A)).flatten := by
    rw [map_container,
      flatten_replicate_split (block_count w h) (bx * (h / 8) + byy)
        (le_of_lt hlt), hoff, drop_flatten_replicate]
  rw [show block_count w h - (bx * (h / 8) + byy) =
      (block_count w h - (bx * (h / 8) + byy) - 1) + 1 from by omega,
    List.replicate_succ, List.flatten_cons] at hdrop
  have hone : one_block T A ++
      (List.replicate (block_count w h - (bx * (h / 8) + byy) - 1)
        (one_block T A)).flatten =
      0 :: 0 :: 0 :: 0 :: ((List.replicate (8 * 8) (tile_bytes T A)).flatten ++
        (List.replicate (block_count w h - (bx * (h / 8) + byy) - 1)
          (one_block T A)).flatten) := by
    rw [one_block, show packI32LE 0 = [0, 0, 0, 0] from rfl,
      show (64 : Nat) = 8 * 8 from rfl]
    rfl
  rw [hone] at hdrop
  simp only [read_block, hdrop, readRows_replicate T A hT' hA1 hA2 8]
  norm_num [decodeI32LE]

theorem map_round_trip_witness :
    (map_container 16 8 2 (-1)).length = 392 ∧
    read_block (map_container 16 8 2 (-1)) 1 0 (8 / 8) =
      .ok (0, List.replicate 8 (List.replicate 8 ((2 : Nat), (-1 : Int)))) :=
  ⟨by rw [map_container, length_flatten_replicate, one_block_length]; rfl,
   map_round_trip 16 8 2 (-1) (by decide) (by decide) (by decide) (by decide)
     (by decide) (by decide) (by decide) 1 0 (by decide) (by decide)⟩
